import Mathlib

/-
Verification of the pychubby action framework (src/pychubby/actions.py).

Modelling conventions:
* Pixel coordinates and float arithmetic are modelled exactly over ℚ.
* `np.cos (np.radians angle)` and `np.sin (np.radians angle)` are abstracted as
  function parameters `cosd sind : ℚ → ℚ` taking the angle in degrees; theorems
  that need trigonometric facts take them as hypotheses (e.g. the unit-circle
  identity).
* A points array of shape (n, 2) is a `List Pt` with `Pt := ℚ × ℚ`; the row
  width 2 is enforced by the type.
* Numpy integer indexing (negative wrap-around, IndexError on out-of-bounds)
  is modelled by `npIndex`.
* Fallible Python code returns `Except PyErr`.
-/

namespace Pychubby

/-- A 2D point (one row of an `(n, 2)` numpy array). -/
abbrev Pt : Type := ℚ × ℚ

/-- Errors the modelled code can raise. -/
inductive PyErr : Type where
  | shapeError : PyErr
  | indexError : PyErr
  | valueError : PyErr
  | unknownLandmarkNameError : PyErr
deriving DecidableEq

/-- The landmark-face container from pychubby/detect.py (not under src/).
Modelled from the spec: the Face container holds 68 landmark points and a
raster image, and supports construction from a new point set and image. -/
structure LandmarkFace (Img : Type) : Type where
  points : List Pt
  img : Img
deriving DecidableEq

/-- The displacement-field engine from pychubby/base.py (not under src/).
Modelled from the spec: `generate` produces a field object from the image,
old and new landmark positions, the edge-anchoring flag and interpolation
options; `warp` applies the field to an image. The shape validation lives in
`DisplacementField.generate` below. -/
structure DFEngine (Img Field : Type) : Type where
  gen : Img → List Pt → List Pt → Bool → List (String × String) → Field
  warp : Field → Img → Img

/-- Modelled from the spec: `DisplacementField.generate` (pychubby/base.py is
not under src/) must be called with exactly 68 correspondences and fails with
a `ShapeError` if the points arrays are not of shape (68, 2). -/
def DisplacementField.generate {Img Field : Type} (E : DFEngine Img Field)
    (img : Img) (oldPoints newPoints : List Pt) (anchorEdges : Bool)
    (ikw : List (String × String)) : Except PyErr Field :=
  if oldPoints.length = 68 ∧ newPoints.length = 68 then
    .ok (E.gen img oldPoints newPoints anchorEdges ikw)
  else
    .error .shapeError

/-- Lines 62-63 of actions.py: `if not interpolation_kwargs:
interpolation_kwargs = \x7b'function': 'linear'\x7d`. An empty kwargs dict is
falsy, any non-empty dict is truthy. -/
def effectiveIkw (ikw : List (String × String)) : List (String × String) :=
  if ikw.isEmpty then [("function", "linear")] else ikw

/-- `Action.pts2inst` (actions.py lines 36-73): build the displacement field
from the old and new points with edge anchoring, warp the image, and build a
new `LandmarkFace` from the new points and warped image. -/
def Action.pts2inst {Img Field : Type} (E : DFEngine Img Field)
    (new_points : List Pt) (lf : LandmarkFace Img)
    (ikw : List (String × String)) : Except PyErr (LandmarkFace Img × Field) := do
  let kw := effectiveIkw ikw
  let df ← DisplacementField.generate E lf.img lf.points new_points true kw
  let new_img := E.warp df lf.img
  .ok (⟨new_points, new_img⟩, df)

/-- Numpy semantics of indexing axis 0 of an array of length `n` with a Python
int `k`: a negative index is wrapped by adding `n`; an index outside
`-n ≤ k < n` raises `IndexError`. -/
def npIndex (n : Nat) (k : Int) : Except PyErr Nat :=
  if k < 0 then
    if -(n : Int) ≤ k then .ok (k + n).toNat else .error .indexError
  else
    if k < (n : Int) then .ok k.toNat else .error .indexError

/-- Numpy read `a[k]` on a points array. -/
def npGet (l : List Pt) (k : Int) : Except PyErr Pt := do
  let i ← npIndex l.length k
  .ok (l.getD i (0, 0))

/-- Numpy write `offsets[k, 0] = v` (actions.py line 122). -/
def npSetX (off : List Pt) (k : Int) (v : ℚ) : Except PyErr (List Pt) := do
  let i ← npIndex off.length k
  .ok (off.set i (v, (off.getD i (0, 0)).2))

/-- Numpy write `offsets[k, 1] = v` (actions.py line 125). -/
def npSetY (off : List Pt) (k : Int) (v : ℚ) : Except PyErr (List Pt) := do
  let i ← npIndex off.length k
  .ok (off.set i ((off.getD i (0, 0)).1, v))

/-- Numpy elementwise `a + b` on two `(n, 2)` arrays. Broadcasting with
mismatched leading dimensions raises; the degenerate `(1, 2)` broadcast case
never arises here because faces carry 68 points. -/
def npAdd (a b : List Pt) : Except PyErr (List Pt) :=
  if a.length = b.length then
    .ok (List.zipWith (fun p q => (p.1 + q.1, p.2 + q.2)) a b)
  else
    .error .valueError

/-- `AbsoluteMove` (actions.py lines 76-96): the two shift dicts, modelled as
insertion-ordered association lists with the dict's distinct keys. -/
structure AbsoluteMove : Type where
  x_shifts : List (Int × ℚ)
  y_shifts : List (Int × ℚ)

/-- `AbsoluteMove.perform` (actions.py lines 98-131): zero-initialise a
(68, 2) offsets array, write each x-shift into column 0 and each y-shift into
column 1, add the offsets to `lf.points`, and hand off to `pts2inst`. -/
def AbsoluteMove.perform {Img Field : Type} (E : DFEngine Img Field)
    (a : AbsoluteMove) (lf : LandmarkFace Img) :
    Except PyErr (LandmarkFace Img × Field) := do
  let offsets : List Pt := List.replicate 68 ((0 : ℚ), (0 : ℚ))
  let offsets ← a.x_shifts.foldlM (fun off kv => npSetX off kv.1 kv.2) offsets
  let offsets ← a.y_shifts.foldlM (fun off kv => npSetY off kv.1 kv.2) offsets
  let new_points ← npAdd lf.points offsets
  Action.pts2inst E new_points lf []

/-- First-match association-list lookup with integer keys (on a list with
distinct keys this is the value the dict holds for the key). -/
def lookupZ (l : List (Int × ℚ)) (i : Int) : Option ℚ :=
  match l with
  | [] => none
  | kv :: rest => if kv.1 = i then some kv.2 else lookupZ rest i

/-- A key of a Lambda spec dict: an integer landmark index or a symbolic
landmark name (actions.py line 184 branches on `isinstance(k, int)`). -/
inductive LmKey : Type where
  | idx : Int → LmKey
  | name : String → LmKey
deriving DecidableEq

/-- Resolution of a spec key (actions.py line 184:
`key = k if isinstance(k, int) else LANDMARK_NAMES[k]`). The name table
`names` is the `LANDMARK_NAMES` dict. Modelled from the spec: `LANDMARK_NAMES`
lives in pychubby/detect.py, which is not under src/; per the spec's error
taxonomy, a symbolic name with no entry in the table fails with
`UnknownLandmarkNameError`. -/
def resolveKey (names : String → Option Int) : LmKey → Except PyErr Int
  | .idx i => .ok i
  | .name s =>
    match names s with
    | some i => .ok i
    | none => .error .unknownLandmarkNameError

/-- Total variant of `resolveKey`, used to state theorems (agrees with
`resolveKey` whenever the latter succeeds). -/
def resolveKeyD (names : String → Option Int) : LmKey → Int
  | .idx i => i
  | .name s => (names s).getD 0

/-- Decidable test: the key resolves and the resolved index lies in 0..67. -/
def resolvesInRange (names : String → Option Int) : LmKey → Bool
  | .idx i => decide (0 ≤ i ∧ i < 68)
  | .name s =>
    match names s with
    | some i => decide (0 ≤ i ∧ i < 68)
    | none => false

/-- A fitted reference space: the pair of maps `inp2ref` / `ref2inp` obtained
after `estimate` has run on a face. Modelled from the spec: `DefaultRS` lives
in pychubby/reference.py, which is not under src/; the spec specifies only
that `estimate(face)` fits internal state from the face and that the two maps
send landmark coordinates into and out of the reference frame. -/
structure RefSpace : Type where
  inp2ref : Pt → Pt
  ref2inp : Pt → Pt

/-- The reference-space shift of one spec entry (actions.py line 186):
`np.array([[cos(radians(angle)), sin(radians(angle))]]) * prop * scale`. -/
def refShift (cosd sind : ℚ → ℚ) (scale angle pr : ℚ) : Pt :=
  (cosd angle * pr * scale, sind angle * pr * scale)

/-- Squared Euclidean norm of a 2D vector. -/
def normSq (p : Pt) : ℚ :=
  p.1 ^ 2 + p.2 ^ 2

/-- Python dict assignment `d[k] = v` on an insertion-ordered association
list: overwrite in place if the key is present, else append. -/
def dictInsert (d : List (Int × ℚ)) (k : Int) (v : ℚ) : List (Int × ℚ) :=
  if d.any (fun kv => kv.1 == k) then
    d.map (fun kv => if kv.1 == k then (k, v) else kv)
  else
    d ++ [(k, v)]

/-- `Lambda` (actions.py lines 134-157): the scale and the spec dict. The
reference space collaborator is passed to `perform` as the estimator `fit`. -/
structure Lambda : Type where
  scale : ℚ
  specs : List (LmKey × (ℚ × ℚ))

/-- The body of the loop in `Lambda.perform` (actions.py lines 183-191):
resolve the key, build the reference-space shift, read the landmark's
reference position, map the shifted point back to input space, and store the
pixel shift in the two dicts. -/
def lambdaStep (cosd sind : ℚ → ℚ) (rs : RefSpace) (refPts pts : List Pt)
    (scale : ℚ) (names : String → Option Int)
    (acc : List (Int × ℚ) × List (Int × ℚ)) (e : LmKey × (ℚ × ℚ)) :
    Except PyErr (List (Int × ℚ) × List (Int × ℚ)) := do
  let key ← resolveKey names e.1
  let sh := refShift cosd sind scale e.2.1 e.2.2
  let rp ← npGet refPts key
  let new_inp := rs.ref2inp (rp.1 + sh.1, rp.2 + sh.2)
  let lp ← npGet pts key
  .ok (dictInsert acc.1 key (new_inp.1 - lp.1), dictInsert acc.2 key (new_inp.2 - lp.2))

/-- `Lambda.perform` (actions.py lines 159-196): estimate the reference space
on the face (`fit lf`), map all points to the reference frame, run the loop
over the spec entries, and delegate to `AbsoluteMove`. -/
def Lambda.perform {Img Field : Type} (E : DFEngine Img Field)
    (names : String → Option Int) (cosd sind : ℚ → ℚ)
    (fit : LandmarkFace Img → RefSpace) (L : Lambda) (lf : LandmarkFace Img) :
    Except PyErr (LandmarkFace Img × Field) := do
  let rs := fit lf
  let ref_points := lf.points.map rs.inp2ref
  let sh ← L.specs.foldlM (lambdaStep cosd sind rs ref_points lf.points L.scale names) ([], [])
  AbsoluteMove.perform E ⟨sh.1, sh.2⟩ lf

/-- `Lambda.perform` with the mutable `self.reference_space` state made
explicit: `rsPrev` is the fitted state stored on the action instance before
the call; `estimate(lf)` unconditionally overwrites it with a fresh fit of
`lf`, logged in the third component (the list of faces `estimate` was called
on during the call). -/
def Lambda.performSt {Img Field : Type} (E : DFEngine Img Field)
    (names : String → Option Int) (cosd sind : ℚ → ℚ)
    (fit : LandmarkFace Img → RefSpace) (L : Lambda)
    (rsPrev : Option RefSpace) (lf : LandmarkFace Img) :
    Except PyErr (LandmarkFace Img × Field) × Option RefSpace × List (LandmarkFace Img) :=
  (Lambda.perform E names cosd sind fit L lf, some (fit lf), [lf])

/-- `LinearTransform` (actions.py lines 241-278): the six affine parameters. -/
structure LinearTransform : Type where
  scale_x : ℚ
  scale_y : ℚ
  rotation : ℚ
  shear : ℚ
  translation_x : ℚ
  translation_y : ℚ

/-- `skimage.transform.AffineTransform` applied to one point, per its
documented parametrisation: the matrix
`[[sx cos r, -sy sin (r + shear), tx], [sx sin r, sy cos (r + shear), ty]]`.
`cosQ` and `sinQ` abstract cosine and sine on radians. -/
def affineApply (cosQ sinQ : ℚ → ℚ) (T : LinearTransform) (p : Pt) : Pt :=
  (T.scale_x * cosQ T.rotation * p.1 - T.scale_y * sinQ (T.rotation + T.shear) * p.2 + T.translation_x,
   T.scale_x * sinQ T.rotation * p.1 + T.scale_y * cosQ (T.rotation + T.shear) * p.2 + T.translation_y)

/-- `LinearTransform.perform` (actions.py lines 280-315): estimate the
reference space, map all points to the reference frame, apply the affine
transform, map back, build the shift dicts over all indices 0..67, and
delegate to `AbsoluteMove`. -/
def LinearTransform.perform {Img Field : Type} (E : DFEngine Img Field)
    (cosQ sinQ : ℚ → ℚ) (fit : LandmarkFace Img → RefSpace)
    (T : LinearTransform) (lf : LandmarkFace Img) :
    Except PyErr (LandmarkFace Img × Field) := do
  let rs := fit lf
  let ref_points := lf.points.map rs.inp2ref
  let tformed_ref_points := ref_points.map (affineApply cosQ sinQ T)
  let tformed_inp_points := tformed_ref_points.map rs.ref2inp
  let x_shifts ← (List.range 68).mapM (fun (i : Nat) => do
    let t ← npGet tformed_inp_points (i : Int)
    let p ← npGet lf.points (i : Int)
    .ok ((i : Int), t.1 - p.1))
  let y_shifts ← (List.range 68).mapM (fun (i : Nat) => do
    let t ← npGet tformed_inp_points (i : Int)
    let p ← npGet lf.points (i : Int)
    .ok ((i : Int), t.2 - p.2))
  AbsoluteMove.perform E ⟨x_shifts, y_shifts⟩ lf

/-- `LinearTransform.perform` with the mutable `self.reference_space` state
made explicit, exactly as in `Lambda.performSt`. -/
def LinearTransform.performSt {Img Field : Type} (E : DFEngine Img Field)
    (cosQ sinQ : ℚ → ℚ) (fit : LandmarkFace Img → RefSpace)
    (T : LinearTransform) (rsPrev : Option RefSpace) (lf : LandmarkFace Img) :
    Except PyErr (LandmarkFace Img × Field) × Option RefSpace × List (LandmarkFace Img) :=
  (LinearTransform.perform E cosQ sinQ fit T lf, some (fit lf), [lf])

/-- Default of the `scale` parameter of `Chubbify.__init__` (actions.py line
209: `def __init__(self, scale=0.2)`). -/
def Chubbify.defaultScale : Option ℚ :=
  some 0.2

/-- Default of the `scale` parameter of `OpenEyes.__init__` (actions.py line
328: `def __init__(self, scale)` — the parameter has no default). -/
def OpenEyes.defaultScale : Option ℚ :=
  none

/-- Default of the `scale` parameter of `Smile.__init__` (actions.py line
382: `def __init__(self, scale=0.1)`). -/
def Smile.defaultScale : Option ℚ :=
  some 0.1

/-- The fixed spec dict of `Chubbify.perform` (actions.py lines 222-236). -/
def chubbifySpecs : List (LmKey × (ℚ × ℚ)) :=
  [(.name ("LOWER_TEMPLE_L"), (170, 0.4)),
   (.name ("LOWER_TEMPLE_R"), (10, 0.4)),
   (.name ("UPPERMOST_CHEEK_L"), (160, 1)),
   (.name ("UPPERMOST_CHEEK_R"), (20, 1)),
   (.name ("UPPER_CHEEK_L"), (150, 1)),
   (.name ("UPPER_CHEEK_R"), (30, 1)),
   (.name ("LOWER_CHEEK_L"), (140, 1)),
   (.name ("LOWER_CHEEK_R"), (40, 1)),
   (.name ("LOWERMOST_CHEEK_L"), (130, 0.8)),
   (.name ("LOWERMOST_CHEEK_R"), (50, 0.8)),
   (.name ("CHIN_L"), (120, 0.7)),
   (.name ("CHIN_R"), (60, 0.7)),
   (.name ("CHIN"), (90, 0.7))]

/-- The fixed spec dict of `OpenEyes.perform` (actions.py lines 349-368). -/
def openEyesSpecs : List (LmKey × (ℚ × ℚ)) :=
  [(.name ("INNER_EYE_LID_R"), (-100, 0.8)),
   (.name ("OUTER_EYE_LID_R"), (-80, 1)),
   (.name ("INNER_EYE_BOTTOM_R"), (100, 0.5)),
   (.name ("OUTER_EYE_BOTTOM_R"), (80, 0.5)),
   (.name ("INNERMOST_EYEBROW_R"), (-100, 1)),
   (.name ("INNER_EYEBROW_R"), (-100, 1)),
   (.name ("MIDDLE_EYEBROW_R"), (-100, 1)),
   (.name ("OUTER_EYEBROW_R"), (-100, 1)),
   (.name ("OUTERMOST_EYEBROW_R"), (-100, 1)),
   (.name ("INNER_EYE_LID_L"), (-80, 0.8)),
   (.name ("OUTER_EYE_LID_L"), (-100, 1)),
   (.name ("INNER_EYE_BOTTOM_L"), (80, 0.5)),
   (.name ("OUTER_EYE_BOTTOM_L"), (10, 0.5)),
   (.name ("INNERMOST_EYEBROW_L"), (-80, 1)),
   (.name ("INNER_EYEBROW_L"), (-80, 1)),
   (.name ("MIDDLE_EYEBROW_L"), (-80, 1)),
   (.name ("OUTER_EYEBROW_L"), (-80, 1)),
   (.name ("OUTERMOST_EYEBROW_L"), (-80, 1))]

/-- The fixed spec dict of `Smile.perform` (actions.py lines 403-410). -/
def smileSpecs : List (LmKey × (ℚ × ℚ)) :=
  [(.name ("OUTSIDE_MOUTH_CORNER_L"), (-110, 1)),
   (.name ("OUTSIDE_MOUTH_CORNER_R"), (-70, 1)),
   (.name ("INSIDE_MOUTH_CORNER_L"), (-110, 0.8)),
   (.name ("INSIDE_MOUTH_CORNER_R"), (-70, 0.8)),
   (.name ("OUTER_OUTSIDE_UPPER_LIP_L"), (-100, 0.3)),
   (.name ("OUTER_OUTSIDE_UPPER_LIP_R"), (-80, 0.3))]

/-- `Chubbify.perform` (actions.py lines 213-238): build the fixed spec and
delegate to `Lambda(self.scale, specs).perform(lf)`. -/
def Chubbify.perform {Img Field : Type} (E : DFEngine Img Field)
    (names : String → Option Int) (cosd sind : ℚ → ℚ)
    (fit : LandmarkFace Img → RefSpace) (scale : ℚ) (lf : LandmarkFace Img) :
    Except PyErr (LandmarkFace Img × Field) :=
  Lambda.perform E names cosd sind fit ⟨scale, chubbifySpecs⟩ lf

/-- `OpenEyes.perform` (actions.py lines 332-369): build the fixed spec and
delegate to `Lambda(self.scale, specs=specs).perform(lf)`. -/
def OpenEyes.perform {Img Field : Type} (E : DFEngine Img Field)
    (names : String → Option Int) (cosd sind : ℚ → ℚ)
    (fit : LandmarkFace Img → RefSpace) (scale : ℚ) (lf : LandmarkFace Img) :
    Except PyErr (LandmarkFace Img × Field) :=
  Lambda.perform E names cosd sind fit ⟨scale, openEyesSpecs⟩ lf

/-- `Smile.perform` (actions.py lines 386-412): build the fixed spec and
delegate to `Lambda(self.scale, specs).perform(lf)`. -/
def Smile.perform {Img Field : Type} (E : DFEngine Img Field)
    (names : String → Option Int) (cosd sind : ℚ → ℚ)
    (fit : LandmarkFace Img → RefSpace) (scale : ℚ) (lf : LandmarkFace Img) :
    Except PyErr (LandmarkFace Img × Field) :=
  Lambda.perform E names cosd sind fit ⟨scale, smileSpecs⟩ lf

/-- A trivial displacement-field engine over unit image and field types, used
to evaluate the embedding on concrete inputs. -/
def unitEngine : DFEngine Unit Unit :=
  ⟨fun _ _ _ _ _ => (), fun _ i => i⟩

/-- A concrete face with the 68 landmark points (0,0), (1,1), ..., (67,67). -/
def face68 : LandmarkFace Unit :=
  ⟨(List.range 68).map (fun i => ((i : ℚ), (i : ℚ))), ()⟩

/-- A concrete landmark-name table for evaluation: it knows only "CHIN". -/
def exampleNames : String → Option Int :=
  fun s => if s = "CHIN" then some 8 else none

/-- A concrete 67-row points array. -/
def pts67 : List Pt :=
  (List.range 67).map (fun i => ((i : ℚ), (i : ℚ)))

/-- The per-landmark pixel shift described by the spec for one Lambda entry:
map the landmark to reference space, move it by the angle direction scaled by
proportion times scale, map the single point back, and subtract the original
pixel position. -/
def lambdaClaimShift (cosd sind : ℚ → ℚ) (rs : RefSpace) (pts : List Pt) (scale : ℚ)
    (k : Int) (angle pr : ℚ) : Pt :=
  let base := pts.getD k.toNat (0, 0)
  let rp := rs.inp2ref base
  let moved := rs.ref2inp (rp.1 + cosd angle * pr * scale, rp.2 + sind angle * pr * scale)
  (moved.1 - base.1, moved.2 - base.2)

theorem getD_set_self {α : Type} (l : List α) (i : Nat) (a d : α) (h : i < l.length) :
    (l.set i a).getD i d = a := by
  induction l generalizing i with
  | nil => simp at h
  | cons x xs ih =>
    cases i with
    | zero => rfl
    | succ n => simpa [List.getD] using ih n (by simpa using h)

theorem getD_set_ne {α : Type} (l : List α) (i j : Nat) (a d : α) (h : i ≠ j) :
    (l.set i a).getD j d = l.getD j d := by
  induction l generalizing i j with
  | nil => simp
  | cons x xs ih =>
    cases i with
    | zero =>
      cases j with
      | zero => exact absurd rfl h
      | succ m => rfl
    | succ n =>
      cases j with
      | zero => rfl
      | succ m => simpa [List.getD] using ih n m (by omega)

theorem getD_map {α β : Type} (f : α → β) (l : List α) (i : Nat) (da : α) (db : β)
    (h : i < l.length) : (l.map f).getD i db = f (l.getD i da) := by
  induction l generalizing i with
  | nil => simp at h
  | cons x xs ih =>
    cases i with
    | zero => rfl
    | succ n => simpa [List.getD] using ih n (by simpa using h)

theorem getD_replicate {α : Type} (n i : Nat) (a d : α) (h : i < n) :
    (List.replicate n a).getD i d = a := by
  induction n generalizing i with
  | zero => omega
  | succ m ih =>
    cases i with
    | zero => rfl
    | succ j => simpa [List.replicate, List.getD] using ih j (by omega)

theorem getD_zipWith {α β γ : Type} (f : α → β → γ) (a : List α) (b : List β)
    (i : Nat) (da : α) (db : β) (dc : γ) (h1 : i < a.length) (h2 : i < b.length) :
    (List.zipWith f a b).getD i dc = f (a.getD i da) (b.getD i db) := by
  induction a generalizing b i with
  | nil => simp at h1
  | cons x xs ih =>
    cases b with
    | nil => simp at h2
    | cons y ys =>
      cases i with
      | zero => rfl
      | succ n =>
        simpa [List.getD] using ih ys n (by simpa using h1) (by simpa using h2)

theorem ext_of_getD {α : Type} (d : α) :
    ∀ (a b : List α), a.length = b.length →
      (∀ i : Nat, i < a.length → a.getD i d = b.getD i d) → a = b := by
  intro a
  induction a with
  | nil =>
    intro b hlen _
    cases b with
    | nil => rfl
    | cons y ys => simp at hlen
  | cons x xs ih =>
    intro b hlen h
    cases b with
    | nil => simp at hlen
    | cons y ys =>
      have h0 : x = y := h 0 (by simp)
      have htail : xs = ys := by
        refine ih ys (by simpa using hlen) ?_
        intro i hi
        simpa [List.getD] using h (i + 1) (by simpa using Nat.succ_lt_succ hi)
      rw [h0, htail]

theorem lookupZ_eq_none_of_not_mem (l : List (Int × ℚ)) (i : Int)
    (h : i ∉ l.map Prod.fst) : lookupZ l i = none := by
  induction l with
  | nil => rfl
  | cons kv rest ih =>
    have h1 : kv.1 ≠ i := by
      intro he
      exact h (by simp [he.symm])
    have h2 : i ∉ rest.map Prod.fst := by
      intro hm
      exact h (by simp [hm])
    simp [lookupZ, h1, ih h2]

theorem npIndex_ok (n : Nat) (k : Int) (h0 : 0 ≤ k) (h : k < (n : Int)) :
    npIndex n k = .ok k.toNat := by
  unfold npIndex
  rw [if_neg (show ¬ k < 0 by omega), if_pos h]

theorem npIndex_wrap (n : Nat) (k : Int) (hneg : k < 0) (h : -(n : Int) ≤ k) :
    npIndex n k = .ok (k + n).toNat := by
  unfold npIndex
  rw [if_pos hneg, if_pos h]

theorem npIndex_err (n : Nat) (k : Int) (h : k < -(n : Int) ∨ (n : Int) ≤ k) :
    npIndex n k = .error .indexError := by
  unfold npIndex
  rcases h with h | h
  · rw [if_pos (show k < 0 by omega), if_neg (show ¬ -(n : Int) ≤ k by omega)]
  · rw [if_neg (show ¬ k < 0 by omega), if_neg (show ¬ k < (n : Int) by omega)]

theorem npGet_ok (l : List Pt) (k : Int) (h0 : 0 ≤ k) (h : k < (l.length : Int)) :
    npGet l k = .ok (l.getD k.toNat (0, 0)) := by
  unfold npGet
  rw [npIndex_ok l.length k h0 h]
  rfl

theorem npSetX_ok (off : List Pt) (k : Int) (v : ℚ) (h0 : 0 ≤ k)
    (h : k < (off.length : Int)) :
    npSetX off k v = .ok (off.set k.toNat (v, (off.getD k.toNat (0, 0)).2)) := by
  unfold npSetX
  rw [npIndex_ok off.length k h0 h]
  rfl

theorem npSetY_ok (off : List Pt) (k : Int) (v : ℚ) (h0 : 0 ≤ k)
    (h : k < (off.length : Int)) :
    npSetY off k v = .ok (off.set k.toNat ((off.getD k.toNat (0, 0)).1, v)) := by
  unfold npSetY
  rw [npIndex_ok off.length k h0 h]
  rfl

theorem npSetX_ok_wrap (off : List Pt) (k : Int) (v : ℚ)
    (h0 : -(off.length : Int) ≤ k) (h : k < (off.length : Int)) :
    ∃ off', npSetX off k v = .ok off' ∧ off'.length = off.length := by
  unfold npSetX
  by_cases hneg : k < 0
  · rw [npIndex_wrap off.length k hneg h0]
    exact ⟨_, rfl, by simp⟩
  · rw [npIndex_ok off.length k (by omega) h]
    exact ⟨_, rfl, by simp⟩

theorem npSetY_ok_wrap (off : List Pt) (k : Int) (v : ℚ)
    (h0 : -(off.length : Int) ≤ k) (h : k < (off.length : Int)) :
    ∃ off', npSetY off k v = .ok off' ∧ off'.length = off.length := by
  unfold npSetY
  by_cases hneg : k < 0
  · rw [npIndex_wrap off.length k hneg h0]
    exact ⟨_, rfl, by simp⟩
  · rw [npIndex_ok off.length k (by omega) h]
    exact ⟨_, rfl, by simp⟩

theorem npSetX_err (off : List Pt) (k : Int) (v : ℚ)
    (h : k < -(off.length : Int) ∨ (off.length : Int) ≤ k) :
    npSetX off k v = .error .indexError := by
  unfold npSetX
  rw [npIndex_err off.length k h]
  rfl

theorem npSetY_err (off : List Pt) (k : Int) (v : ℚ)
    (h : k < -(off.length : Int) ∨ (off.length : Int) ≤ k) :
    npSetY off k v = .error .indexError := by
  unfold npSetY
  rw [npIndex_err off.length k h]
  rfl

theorem exceptFoldlM_nil {σ α : Type} (f : σ → α → Except PyErr σ) (s : σ) :
    List.foldlM f s ([] : List α) = .ok s :=
  rfl

theorem exceptFoldlM_cons_ok {σ α : Type} (f : σ → α → Except PyErr σ) (a : α)
    (l : List α) (s s' : σ) (h : f s a = .ok s') :
    List.foldlM f s (a :: l) = List.foldlM f s' l := by
  simp only [List.foldlM_cons, h]
  rfl

theorem exceptFoldlM_cons_err {σ α : Type} (f : σ → α → Except PyErr σ) (a : α)
    (l : List α) (s : σ) (e : PyErr) (h : f s a = .error e) :
    List.foldlM f s (a :: l) = .error e := by
  simp only [List.foldlM_cons, h]
  rfl

theorem foldSetX_char :
    ∀ (l : List (Int × ℚ)) (off : List Pt), off.length = 68 →
      (∀ kv ∈ l, 0 ≤ kv.1 ∧ kv.1 < 68) → (l.map Prod.fst).Nodup →
      ∃ off', List.foldlM (fun o kv => npSetX o kv.1 kv.2) off l = .ok off' ∧
        off'.length = 68 ∧
        ∀ i : Nat, i < 68 →
          off'.getD i (0, 0) =
            ((lookupZ l ((i : Int))).getD ((off.getD i (0, 0)).1), (off.getD i (0, 0)).2) := by
  intro l
  induction l with
  | nil =>
    intro off hoff _ _
    refine ⟨off, rfl, hoff, ?_⟩
    intro i _
    simp [lookupZ]
  | cons kv rest ih =>
    intro off hoff hall hnd
    obtain ⟨hk0, hk68⟩ := hall kv (by simp)
    have hset : npSetX off kv.1 kv.2 =
        .ok (off.set kv.1.toNat (kv.2, (off.getD kv.1.toNat (0, 0)).2)) :=
      npSetX_ok off kv.1 kv.2 hk0 (by omega)
    rw [List.map_cons, List.nodup_cons] at hnd
    have hnotmem : kv.1 ∉ rest.map Prod.fst := hnd.1
    have hnd' : (rest.map Prod.fst).Nodup := hnd.2
    obtain ⟨off', hfold, hlen', hchar⟩ :=
      ih (off.set kv.1.toNat (kv.2, (off.getD kv.1.toNat (0, 0)).2)) (by simp [hoff])
        (fun e he => hall e (by simp [he])) hnd'
    refine ⟨off', ?_, hlen', ?_⟩
    · rw [exceptFoldlM_cons_ok _ _ _ _ _ hset]
      exact hfold
    · intro i hi
      rw [hchar i hi]
      by_cases hik : ((i : Int)) = kv.1
      · have hit : kv.1.toNat = i := by omega
        have hrest : lookupZ rest ((i : Int)) = none := by
          rw [hik]
          exact lookupZ_eq_none_of_not_mem rest kv.1 hnotmem
        have hcons : lookupZ (kv :: rest) ((i : Int)) = some kv.2 := by
          simp [lookupZ, hik.symm]
        have hget : (off.set kv.1.toNat (kv.2, (off.getD kv.1.toNat (0, 0)).2)).getD i (0, 0)
            = (kv.2, (off.getD i (0, 0)).2) := by
          rw [← hit]
          exact getD_set_self off kv.1.toNat _ _ (by omega)
        rw [hrest, hcons, hget]
        rfl
      · have hit : kv.1.toNat ≠ i := by omega
        have hne : kv.1 ≠ ((i : Nat) : Int) := fun h => hik h.symm
        have hcons : lookupZ (kv :: rest) ((i : Int)) = lookupZ rest ((i : Int)) := by
          simp [lookupZ, hne]
        have hget : (off.set kv.1.toNat (kv.2, (off.getD kv.1.toNat (0, 0)).2)).getD i (0, 0)
            = off.getD i (0, 0) :=
          getD_set_ne off kv.1.toNat i _ _ hit
        rw [hcons, hget]

theorem foldSetY_char :
    ∀ (l : List (Int × ℚ)) (off : List Pt), off.length = 68 →
      (∀ kv ∈ l, 0 ≤ kv.1 ∧ kv.1 < 68) → (l.map Prod.fst).Nodup →
      ∃ off', List.foldlM (fun o kv => npSetY o kv.1 kv.2) off l = .ok off' ∧
        off'.length = 68 ∧
        ∀ i : Nat, i < 68 →
          off'.getD i (0, 0) =
            ((off.getD i (0, 0)).1, (lookupZ l ((i : Int))).getD ((off.getD i (0, 0)).2)) := by
  intro l
  induction l with
  | nil =>
    intro off hoff _ _
    refine ⟨off, rfl, hoff, ?_⟩
    intro i _
    simp [lookupZ]
  | cons kv rest ih =>
    intro off hoff hall hnd
    obtain ⟨hk0, hk68⟩ := hall kv (by simp)
    have hset : npSetY off kv.1 kv.2 =
        .ok (off.set kv.1.toNat ((off.getD kv.1.toNat (0, 0)).1, kv.2)) :=
      npSetY_ok off kv.1 kv.2 hk0 (by omega)
    rw [List.map_cons, List.nodup_cons] at hnd
    have hnotmem : kv.1 ∉ rest.map Prod.fst := hnd.1
    have hnd' : (rest.map Prod.fst).Nodup := hnd.2
    obtain ⟨off', hfold, hlen', hchar⟩ :=
      ih (off.set kv.1.toNat ((off.getD kv.1.toNat (0, 0)).1, kv.2)) (by simp [hoff])
        (fun e he => hall e (by simp [he])) hnd'
    refine ⟨off', ?_, hlen', ?_⟩
    · rw [exceptFoldlM_cons_ok _ _ _ _ _ hset]
      exact hfold
    · intro i hi
      rw [hchar i hi]
      by_cases hik : ((i : Int)) = kv.1
      · have hit : kv.1.toNat = i := by omega
        have hrest : lookupZ rest ((i : Int)) = none := by
          rw [hik]
          exact lookupZ_eq_none_of_not_mem rest kv.1 hnotmem
        have hcons : lookupZ (kv :: rest) ((i : Int)) = some kv.2 := by
          simp [lookupZ, hik.symm]
        have hget : (off.set kv.1.toNat ((off.getD kv.1.toNat (0, 0)).1, kv.2)).getD i (0, 0)
            = ((off.getD i (0, 0)).1, kv.2) := by
          rw [← hit]
          exact getD_set_self off kv.1.toNat _ _ (by omega)
        rw [hrest, hcons, hget]
        rfl
      · have hit : kv.1.toNat ≠ i := by omega
        have hne : kv.1 ≠ ((i : Nat) : Int) := fun h => hik h.symm
        have hcons : lookupZ (kv :: rest) ((i : Int)) = lookupZ rest ((i : Int)) := by
          simp [lookupZ, hne]
        have hget : (off.set kv.1.toNat ((off.getD kv.1.toNat (0, 0)).1, kv.2)).getD i (0, 0)
            = off.getD i (0, 0) :=
          getD_set_ne off kv.1.toNat i _ _ hit
        rw [hcons, hget]

theorem exceptBind_ok {α β : Type} (a : α) (f : α → Except PyErr β) :
    ((Except.ok a : Except PyErr α) >>= f) = f a :=
  rfl

theorem exceptBind_err {α β : Type} (e : PyErr) (f : α → Except PyErr β) :
    ((Except.error e : Except PyErr α) >>= f) = .error e :=
  rfl

theorem foldSetX_ok_of_inRange :
    ∀ (l : List (Int × ℚ)) (off : List Pt), off.length = 68 →
      (∀ kv ∈ l, -68 ≤ kv.1 ∧ kv.1 < 68) →
      ∃ off', List.foldlM (fun o kv => npSetX o kv.1 kv.2) off l = .ok off' ∧
        off'.length = 68 := by
  intro l
  induction l with
  | nil =>
    intro off hoff _
    exact ⟨off, rfl, hoff⟩
  | cons kv rest ih =>
    intro off hoff hall
    obtain ⟨hk0, hk68⟩ := hall kv (by simp)
    obtain ⟨off1, hset, hlen1⟩ := npSetX_ok_wrap off kv.1 kv.2 (by omega) (by omega)
    obtain ⟨off', hfold, hlen'⟩ := ih off1 (by omega) (fun e he => hall e (by simp [he]))
    refine ⟨off', ?_, hlen'⟩
    rw [exceptFoldlM_cons_ok _ _ _ _ _ hset]
    exact hfold

theorem foldSetY_ok_of_inRange :
    ∀ (l : List (Int × ℚ)) (off : List Pt), off.length = 68 →
      (∀ kv ∈ l, -68 ≤ kv.1 ∧ kv.1 < 68) →
      ∃ off', List.foldlM (fun o kv => npSetY o kv.1 kv.2) off l = .ok off' ∧
        off'.length = 68 := by
  intro l
  induction l with
  | nil =>
    intro off hoff _
    exact ⟨off, rfl, hoff⟩
  | cons kv rest ih =>
    intro off hoff hall
    obtain ⟨hk0, hk68⟩ := hall kv (by simp)
    obtain ⟨off1, hset, hlen1⟩ := npSetY_ok_wrap off kv.1 kv.2 (by omega) (by omega)
    obtain ⟨off', hfold, hlen'⟩ := ih off1 (by omega) (fun e he => hall e (by simp [he]))
    refine ⟨off', ?_, hlen'⟩
    rw [exceptFoldlM_cons_ok _ _ _ _ _ hset]
    exact hfold

theorem foldSetX_err :
    ∀ (l : List (Int × ℚ)) (off : List Pt), off.length = 68 →
      (∃ kv ∈ l, kv.1 < -68 ∨ 68 ≤ kv.1) →
      List.foldlM (fun o kv => npSetX o kv.1 kv.2) off l = .error .indexError := by
  intro l
  induction l with
  | nil =>
    intro off _ hex
    simp at hex
  | cons kv rest ih =>
    intro off hoff hex
    by_cases hbad : kv.1 < -68 ∨ 68 ≤ kv.1
    · rw [exceptFoldlM_cons_err _ _ _ _ _ (npSetX_err off kv.1 kv.2 (by omega))]
    · obtain ⟨off1, hset, hlen1⟩ := npSetX_ok_wrap off kv.1 kv.2 (by omega) (by omega)
      rw [exceptFoldlM_cons_ok _ _ _ _ _ hset]
      obtain ⟨e, hmem, he⟩ := hex
      rcases List.mem_cons.mp hmem with heq | hmem'
      · exact absurd (heq ▸ he) hbad
      · exact ih off1 (by omega) ⟨e, hmem', he⟩

theorem foldSetY_err :
    ∀ (l : List (Int × ℚ)) (off : List Pt), off.length = 68 →
      (∃ kv ∈ l, kv.1 < -68 ∨ 68 ≤ kv.1) →
      List.foldlM (fun o kv => npSetY o kv.1 kv.2) off l = .error .indexError := by
  intro l
  induction l with
  | nil =>
    intro off _ hex
    simp at hex
  | cons kv rest ih =>
    intro off hoff hex
    by_cases hbad : kv.1 < -68 ∨ 68 ≤ kv.1
    · rw [exceptFoldlM_cons_err _ _ _ _ _ (npSetY_err off kv.1 kv.2 (by omega))]
    · obtain ⟨off1, hset, hlen1⟩ := npSetY_ok_wrap off kv.1 kv.2 (by omega) (by omega)
      rw [exceptFoldlM_cons_ok _ _ _ _ _ hset]
      obtain ⟨e, hmem, he⟩ := hex
      rcases List.mem_cons.mp hmem with heq | hmem'
      · exact absurd (heq ▸ he) hbad
      · exact ih off1 (by omega) ⟨e, hmem', he⟩

/-- Full characterisation of a successful `AbsoluteMove.perform` when every
shift key is a distinct in-range landmark index. -/
theorem absoluteMove_char {Img Field : Type} (E : DFEngine Img Field)
    (lf : LandmarkFace Img) (x y : List (Int × ℚ)) (hlen : lf.points.length = 68)
    (hx : ∀ kv ∈ x, 0 ≤ kv.1 ∧ kv.1 < 68) (hxnd : (x.map Prod.fst).Nodup)
    (hy : ∀ kv ∈ y, 0 ≤ kv.1 ∧ kv.1 < 68) (hynd : (y.map Prod.fst).Nodup) :
    ∃ r : LandmarkFace Img × Field,
      AbsoluteMove.perform E ⟨x, y⟩ lf = .ok r ∧
      r.1.points.length = 68 ∧
      ∀ i : Nat, i < 68 →
        r.1.points.getD i (0, 0) =
          ((lf.points.getD i (0, 0)).1 + (lookupZ x (i : Int)).getD 0,
           (lf.points.getD i (0, 0)).2 + (lookupZ y (i : Int)).getD 0) := by
  obtain ⟨off1, hfx, hlen1, hcharx⟩ :=
    foldSetX_char x (List.replicate 68 ((0 : ℚ), (0 : ℚ))) (by simp) hx hxnd
  obtain ⟨off2, hfy, hlen2, hchary⟩ := foldSetY_char y off1 hlen1 hy hynd
  have hoff2 : ∀ i : Nat, i < 68 →
      off2.getD i (0, 0) = ((lookupZ x (i : Int)).getD 0, (lookupZ y (i : Int)).getD 0) := by
    intro i hi
    rw [hchary i hi, hcharx i hi, getD_replicate 68 i ((0 : ℚ), (0 : ℚ)) _ hi]
  have hadd : npAdd lf.points off2 =
      .ok (List.zipWith (fun p q => (p.1 + q.1, p.2 + q.2)) lf.points off2) := by
    unfold npAdd
    rw [if_pos (by omega)]
  have hgenlen : (List.zipWith (fun p q : Pt => (p.1 + q.1, p.2 + q.2)) lf.points off2).length = 68 := by
    rw [List.length_zipWith]
    omega
  have hgen : DisplacementField.generate E lf.img lf.points
      (List.zipWith (fun p q => (p.1 + q.1, p.2 + q.2)) lf.points off2) true
      (effectiveIkw []) =
      .ok (E.gen lf.img lf.points
        (List.zipWith (fun p q => (p.1 + q.1, p.2 + q.2)) lf.points off2) true
        (effectiveIkw [])) := by
    unfold DisplacementField.generate
    rw [if_pos ⟨hlen, hgenlen⟩]
  have hperf : AbsoluteMove.perform E ⟨x, y⟩ lf =
      .ok ((⟨List.zipWith (fun p q => (p.1 + q.1, p.2 + q.2)) lf.points off2,
            E.warp (E.gen lf.img lf.points
              (List.zipWith (fun p q => (p.1 + q.1, p.2 + q.2)) lf.points off2) true
              (effectiveIkw [])) lf.img⟩ : LandmarkFace Img),
           E.gen lf.img lf.points
             (List.zipWith (fun p q => (p.1 + q.1, p.2 + q.2)) lf.points off2) true
             (effectiveIkw [])) := by
    unfold AbsoluteMove.perform Action.pts2inst
    simp only [hfx, exceptBind_ok, hfy, hadd, hgen]
  refine ⟨_, hperf, hgenlen, ?_⟩
  intro i hi
  show (List.zipWith (fun p q : Pt => (p.1 + q.1, p.2 + q.2)) lf.points off2).getD i (0, 0) = _
  rw [getD_zipWith _ lf.points off2 i (0, 0) (0, 0) (0, 0) (by omega) (by omega)]
  rw [hoff2 i hi]

theorem npIndex_err_only (n : Nat) (k : Int) (e : PyErr)
    (h : npIndex n k = .error e) : e = .indexError := by
  unfold npIndex at h
  by_cases h1 : k < 0
  · rw [if_pos h1] at h
    by_cases h2 : -(n : Int) ≤ k
    · rw [if_pos h2] at h
      exact absurd h (by simp)
    · rw [if_neg h2] at h
      exact (Except.error.injEq _ _).mp h.symm
  · rw [if_neg h1] at h
    by_cases h2 : k < (n : Int)
    · rw [if_pos h2] at h
      exact absurd h (by simp)
    · rw [if_neg h2] at h
      exact (Except.error.injEq _ _).mp h.symm

theorem npSetX_err_only (off : List Pt) (k : Int) (v : ℚ) (e : PyErr)
    (h : npSetX off k v = .error e) : e = .indexError := by
  unfold npSetX at h
  cases hni : npIndex off.length k with
  | error e' =>
    rw [hni] at h
    rw [exceptBind_err] at h
    rw [← (Except.error.injEq _ _).mp h]
    exact npIndex_err_only off.length k e' hni
  | ok i =>
    rw [hni] at h
    rw [exceptBind_ok] at h
    exact absurd h (by simp)

theorem npSetY_err_only (off : List Pt) (k : Int) (v : ℚ) (e : PyErr)
    (h : npSetY off k v = .error e) : e = .indexError := by
  unfold npSetY at h
  cases hni : npIndex off.length k with
  | error e' =>
    rw [hni] at h
    rw [exceptBind_err] at h
    rw [← (Except.error.injEq _ _).mp h]
    exact npIndex_err_only off.length k e' hni
  | ok i =>
    rw [hni] at h
    rw [exceptBind_ok] at h
    exact absurd h (by simp)

theorem npSetX_len (off : List Pt) (k : Int) (v : ℚ) (off' : List Pt)
    (h : npSetX off k v = .ok off') : off'.length = off.length := by
  unfold npSetX at h
  cases hni : npIndex off.length k with
  | error e' =>
    rw [hni, exceptBind_err] at h
    exact absurd h (by simp)
  | ok i =>
    rw [hni, exceptBind_ok] at h
    rw [← (Except.ok.injEq _ _).mp h]
    simp

theorem foldSetX_err_only :
    ∀ (l : List (Int × ℚ)) (off : List Pt) (e : PyErr),
      List.foldlM (fun o kv => npSetX o kv.1 kv.2) off l = .error e →
      e = .indexError := by
  intro l
  induction l with
  | nil =>
    intro off e h
    rw [exceptFoldlM_nil] at h
    exact absurd h (by simp)
  | cons kv rest ih =>
    intro off e h
    cases hset : npSetX off kv.1 kv.2 with
    | error e' =>
      rw [exceptFoldlM_cons_err _ _ _ _ _ hset] at h
      rw [← (Except.error.injEq _ _).mp h]
      exact npSetX_err_only off kv.1 kv.2 e' hset
    | ok off1 =>
      rw [exceptFoldlM_cons_ok _ _ _ _ _ hset] at h
      exact ih off1 e h

theorem foldSetX_len :
    ∀ (l : List (Int × ℚ)) (off off' : List Pt),
      List.foldlM (fun o kv => npSetX o kv.1 kv.2) off l = .ok off' →
      off'.length = off.length := by
  intro l
  induction l with
  | nil =>
    intro off off' h
    rw [exceptFoldlM_nil] at h
    rw [← (Except.ok.injEq _ _).mp h]
  | cons kv rest ih =>
    intro off off' h
    cases hset : npSetX off kv.1 kv.2 with
    | error e' =>
      rw [exceptFoldlM_cons_err _ _ _ _ _ hset] at h
      exact absurd h (by simp)
    | ok off1 =>
      rw [exceptFoldlM_cons_ok _ _ _ _ _ hset] at h
      rw [ih off1 off' h]
      exact npSetX_len off kv.1 kv.2 off1 hset

/-- C1: for every face and every pair of shift maps whose integer keys all
lie in 0..67, `AbsoluteMove(x_shifts, y_shifts).perform(face)` returns a new
face whose landmark `i` equals `face.points[i] + (x_shifts[i], y_shifts[i])`
for every `i` in 0..67, a landmark absent from a map getting offset 0; each
shift is applied exactly once and independently across landmarks. -/
theorem absoluteMove_applies_shifts {Img Field : Type} (E : DFEngine Img Field)
    (lf : LandmarkFace Img) (x y : List (Int × ℚ))
    (hlen : lf.points.length = 68)
    (hx : ∀ kv ∈ x, 0 ≤ kv.1 ∧ kv.1 < 68) (hxnd : (x.map Prod.fst).Nodup)
    (hy : ∀ kv ∈ y, 0 ≤ kv.1 ∧ kv.1 < 68) (hynd : (y.map Prod.fst).Nodup) :
    ∃ r : LandmarkFace Img × Field,
      AbsoluteMove.perform E ⟨x, y⟩ lf = .ok r ∧
      r.1.points.length = 68 ∧
      ∀ i : Nat, i < 68 →
        r.1.points.getD i (0, 0) =
          ((lf.points.getD i (0, 0)).1 + (lookupZ x (i : Int)).getD 0,
           (lf.points.getD i (0, 0)).2 + (lookupZ y (i : Int)).getD 0) :=
  absoluteMove_char E lf x y hlen hx hxnd hy hynd

/-- Witness for C1 at a concrete face and concrete shift maps. -/
theorem absoluteMove_applies_shifts_witness :
    ∃ r : LandmarkFace Unit × Unit,
      AbsoluteMove.perform unitEngine ⟨[((0 : Int), (3 : ℚ))], [((5 : Int), (-2 : ℚ))]⟩ face68 = .ok r ∧
      r.1.points.length = 68 ∧
      ∀ i : Nat, i < 68 →
        r.1.points.getD i (0, 0) =
          ((face68.points.getD i (0, 0)).1 + (lookupZ [((0 : Int), (3 : ℚ))] (i : Int)).getD 0,
           (face68.points.getD i (0, 0)).2 + (lookupZ [((5 : Int), (-2 : ℚ))] (i : Int)).getD 0) :=
  absoluteMove_applies_shifts unitEngine face68 [((0 : Int), (3 : ℚ))] [((5 : Int), (-2 : ℚ))]
    (by rfl) (by decide) (by decide) (by decide) (by decide)

/-- C6: calling `pts2inst` with a points array that does not have 68 rows
fails with a `ShapeError`; no partial result is produced (the call returns
only the error). -/
theorem pts2inst_shape_error {Img Field : Type} (E : DFEngine Img Field)
    (lf : LandmarkFace Img) (new_points : List Pt) (ikw : List (String × String))
    (h : new_points.length ≠ 68) :
    Action.pts2inst E new_points lf ikw = .error .shapeError := by
  simp only [Action.pts2inst, DisplacementField.generate]
  rw [if_neg (fun hc => h hc.2)]
  rfl

/-- Witness for C6: a 67×2 points array is rejected with `ShapeError`. -/
theorem pts2inst_shape_error_witness :
    Action.pts2inst unitEngine pts67 face68 [] = .error .shapeError :=
  pts2inst_shape_error unitEngine face68 pts67 [] (by decide)

/-- C10: the default interpolation option \x7b'function': 'linear'\x7d is used
only when no interpolation kwargs are supplied; any supplied kwargs replace
the default completely and 'function': 'linear' is not added to them. -/
theorem effectiveIkw_default_only_when_empty :
    effectiveIkw [] = [("function", "linear")] ∧
    ∀ ikw : List (String × String), ikw ≠ [] → effectiveIkw ikw = ikw := by
  constructor
  · rfl
  · intro ikw h
    unfold effectiveIkw
    rw [if_neg (fun hc => h (by simpa using hc))]

/-- Witness for C10 at concrete non-empty kwargs. -/
theorem effectiveIkw_default_only_when_empty_witness :
    effectiveIkw [("function", "cubic")] = [("function", "cubic")] :=
  effectiveIkw_default_only_when_empty.2 [("function", "cubic")] (by decide)

/-- C7 counterexample: the claim says any shift-map key outside 0..67 makes
`AbsoluteMove.perform` fail with a `LandmarkIndexError`, but the key -1 is
accepted without any error: numpy wraps it to row 67, so landmark 67 of the
concrete face (67, 67) is shifted by (5, 0) to (72, 67). -/
theorem absoluteMove_negative_key_counterexample :
    (AbsoluteMove.perform unitEngine ⟨[((-1 : Int), (5 : ℚ))], []⟩ face68).toOption.map
      (fun r => r.1.points.getD 67 (0, 0)) = some ((72 : ℚ), (67 : ℚ)) := by
  have hidx : npIndex (List.replicate 68 ((0 : ℚ), (0 : ℚ))).length (-1) = .ok 67 := rfl
  have hset : npSetX (List.replicate 68 ((0 : ℚ), (0 : ℚ))) (-1) 5 =
      .ok ((List.replicate 68 ((0 : ℚ), (0 : ℚ))).set 67 (5, 0)) := by
    unfold npSetX
    rw [hidx, exceptBind_ok, getD_replicate 68 67 ((0 : ℚ), (0 : ℚ)) ((0 : ℚ), (0 : ℚ)) (by omega)]
  have hfold : List.foldlM (fun off kv => npSetX off kv.1 kv.2)
      (List.replicate 68 ((0 : ℚ), (0 : ℚ))) [((-1 : Int), (5 : ℚ))] =
      .ok ((List.replicate 68 ((0 : ℚ), (0 : ℚ))).set 67 (5, 0)) := by
    rw [exceptFoldlM_cons_ok _ _ _ _ _ hset, exceptFoldlM_nil]
  have hone : ((List.replicate 68 ((0 : ℚ), (0 : ℚ))).set 67 ((5 : ℚ), (0 : ℚ))).length = 68 := by
    simp
  have hadd : npAdd face68.points ((List.replicate 68 ((0 : ℚ), (0 : ℚ))).set 67 (5, 0)) =
      .ok (List.zipWith (fun p q => (p.1 + q.1, p.2 + q.2)) face68.points
        ((List.replicate 68 ((0 : ℚ), (0 : ℚ))).set 67 (5, 0))) := by
    unfold npAdd
    rw [if_pos]
    rw [hone]
    rfl
  have hgen : DisplacementField.generate unitEngine face68.img face68.points
      (List.zipWith (fun p q => (p.1 + q.1, p.2 + q.2)) face68.points
        ((List.replicate 68 ((0 : ℚ), (0 : ℚ))).set 67 (5, 0))) true (effectiveIkw []) =
      .ok () := by
    unfold DisplacementField.generate
    rw [if_pos]
    constructor
    · rfl
    · rw [List.length_zipWith, hone]
      rfl
  have hperf : AbsoluteMove.perform unitEngine ⟨[((-1 : Int), (5 : ℚ))], []⟩ face68 =
      .ok ((⟨List.zipWith (fun p q => (p.1 + q.1, p.2 + q.2)) face68.points
        ((List.replicate 68 ((0 : ℚ), (0 : ℚ))).set 67 (5, 0)), ()⟩ : LandmarkFace Unit), ()) := by
    simp only [AbsoluteMove.perform, Action.pts2inst, hfold, exceptBind_ok, exceptFoldlM_nil,
      hadd, hgen]
  rw [hperf]
  refine congrArg some ?_
  show (List.zipWith (fun p q : Pt => (p.1 + q.1, p.2 + q.2)) face68.points
    ((List.replicate 68 ((0 : ℚ), (0 : ℚ))).set 67 (5, 0))).getD 67 (0, 0) = _
  have hpt : face68.points.getD 67 (0, 0) = ((67 : ℚ), (67 : ℚ)) := by
    have h1 := getD_map (fun i : Nat => ((i : ℚ), (i : ℚ))) (List.range 68) 67 0
      ((0 : ℚ), (0 : ℚ)) (by decide)
    show ((List.range 68).map (fun i : Nat => ((i : ℚ), (i : ℚ)))).getD 67 (0, 0) = _
    rw [h1]
    show ((((67 : ℕ)) : ℚ), (((67 : ℕ)) : ℚ)) = _
    simp only [Prod.mk.injEq]
    constructor <;> norm_num
  have hoff : ((List.replicate 68 ((0 : ℚ), (0 : ℚ))).set 67 ((5 : ℚ), (0 : ℚ))).getD 67 (0, 0) = (5, 0) :=
    getD_set_self _ 67 _ _ (by simp)
  rw [getD_zipWith _ _ _ 67 (0, 0) (0, 0) (0, 0) (by decide) (by rw [hone]; omega)]
  rw [hpt, hoff]
  simp only [Prod.mk.injEq]
  constructor <;> norm_num

/-- C7 amended: no `LandmarkIndexError` exists in actions.py; the only
out-of-range behaviour comes from numpy indexing of the (68, 2) offsets
array. A key below -68 or at least 68 makes `perform` fail with the numpy
`IndexError`; keys in -68..67 (negative keys wrap to 68+k) never fail. -/
theorem absoluteMove_key_bounds {Img Field : Type} (E : DFEngine Img Field)
    (lf : LandmarkFace Img) (x y : List (Int × ℚ)) (hlen : lf.points.length = 68) :
    ((∃ kv, (kv ∈ x ∨ kv ∈ y) ∧ (kv.1 < -68 ∨ 68 ≤ kv.1)) →
      AbsoluteMove.perform E ⟨x, y⟩ lf = .error .indexError) ∧
    ((∀ kv, (kv ∈ x ∨ kv ∈ y) → -68 ≤ kv.1 ∧ kv.1 < 68) →
      ∃ r : LandmarkFace Img × Field, AbsoluteMove.perform E ⟨x, y⟩ lf = .ok r) := by
  constructor
  · rintro ⟨kv, hmem, hbad⟩
    simp only [AbsoluteMove.perform]
    rcases hmem with hmx | hmy
    · rw [foldSetX_err x _ (by simp) ⟨kv, hmx, hbad⟩, exceptBind_err]
    · cases hfx : List.foldlM (fun o kv => npSetX o kv.1 kv.2)
          (List.replicate 68 ((0 : ℚ), (0 : ℚ))) x with
      | error e =>
        rw [exceptBind_err, foldSetX_err_only x _ e hfx]
      | ok off1 =>
        have hlen1 : off1.length = 68 := by
          rw [foldSetX_len x _ off1 hfx]
          simp
        simp only [exceptBind_ok]
        rw [foldSetY_err y off1 hlen1 ⟨kv, hmy, hbad⟩, exceptBind_err]
  · intro hall
    obtain ⟨off1, hfx, hlen1⟩ :=
      foldSetX_ok_of_inRange x (List.replicate 68 ((0 : ℚ), (0 : ℚ))) (by simp)
        (fun kv hm => hall kv (Or.inl hm))
    obtain ⟨off2, hfy, hlen2⟩ :=
      foldSetY_ok_of_inRange y off1 hlen1 (fun kv hm => hall kv (Or.inr hm))
    have hadd : npAdd lf.points off2 =
        .ok (List.zipWith (fun p q => (p.1 + q.1, p.2 + q.2)) lf.points off2) := by
      unfold npAdd
      rw [if_pos (by omega)]
    have hgen : DisplacementField.generate E lf.img lf.points
        (List.zipWith (fun p q => (p.1 + q.1, p.2 + q.2)) lf.points off2) true
        (effectiveIkw []) =
        .ok (E.gen lf.img lf.points
          (List.zipWith (fun p q => (p.1 + q.1, p.2 + q.2)) lf.points off2) true
          (effectiveIkw [])) := by
      unfold DisplacementField.generate
      rw [if_pos ⟨hlen, by rw [List.length_zipWith]; omega⟩]
    refine ⟨((⟨List.zipWith (fun p q => (p.1 + q.1, p.2 + q.2)) lf.points off2,
      E.warp (E.gen lf.img lf.points
        (List.zipWith (fun p q => (p.1 + q.1, p.2 + q.2)) lf.points off2) true
        (effectiveIkw [])) lf.img⟩ : LandmarkFace Img),
      E.gen lf.img lf.points
        (List.zipWith (fun p q => (p.1 + q.1, p.2 + q.2)) lf.points off2) true
        (effectiveIkw [])), ?_⟩
    simp only [AbsoluteMove.perform, Action.pts2inst]
    simp only [hfx, exceptBind_ok, hfy, hadd, hgen]

/-- Witness for the amended C7 at a concrete face: the key 68 (out of range
even after wrap) makes `perform` fail with the numpy `IndexError`. -/
theorem absoluteMove_key_bounds_witness :
    AbsoluteMove.perform unitEngine ⟨[((-1 : Int), (5 : ℚ))], [((68 : Int), (2 : ℚ))]⟩ face68 =
      .error .indexError :=
  (absoluteMove_key_bounds unitEngine face68 [((-1 : Int), (5 : ℚ))] [((68 : Int), (2 : ℚ))]
    (by rfl)).1 ⟨((68 : Int), (2 : ℚ)), Or.inr (by simp), Or.inr (by decide)⟩

/-- C4 counterexample: the claim says all three presets can be constructed
without an explicit scale argument, but `OpenEyes.__init__(self, scale)` has
no default for `scale` (actions.py line 328): its default-scale slot is
empty. -/
theorem presets_default_scale_counterexample :
    ¬ (Chubbify.defaultScale.isSome = true ∧ OpenEyes.defaultScale.isSome = true ∧
       Smile.defaultScale.isSome = true) := by
  intro h
  exact absurd h.2.1 (by decide)

/-- C4 amended: Chubbify and Smile default their scale to 0.2 and 0.1
respectively; OpenEyes has no default and must be given a scale explicitly;
and for every face each preset's `perform` is exactly
`Lambda(scale, its fixed hand-tuned spec).perform(face)`, with no other
computation. -/
theorem presets_delegate_to_lambda {Img Field : Type} (E : DFEngine Img Field)
    (names : String → Option Int) (cosd sind : ℚ → ℚ)
    (fit : LandmarkFace Img → RefSpace) (scale : ℚ) (lf : LandmarkFace Img) :
    Chubbify.defaultScale = some 0.2 ∧ Smile.defaultScale = some 0.1 ∧
    OpenEyes.defaultScale = none ∧
    Chubbify.perform E names cosd sind fit scale lf =
      Lambda.perform E names cosd sind fit ⟨scale, chubbifySpecs⟩ lf ∧
    OpenEyes.perform E names cosd sind fit scale lf =
      Lambda.perform E names cosd sind fit ⟨scale, openEyesSpecs⟩ lf ∧
    Smile.perform E names cosd sind fit scale lf =
      Lambda.perform E names cosd sind fit ⟨scale, smileSpecs⟩ lf :=
  ⟨rfl, rfl, rfl, rfl, rfl, rfl⟩

/-- C9: each `perform` call estimates the reference space on the given face
exactly once (the estimate log of a call is `[lf]`), the resulting fitted
state is a function of that face alone, and the call's outcome is independent
of whatever fitted state the action instance carried from earlier calls — so
nothing is cached between calls and fits are per-call, both for `Lambda` and
for `LinearTransform`. -/
theorem perform_fits_reference_space_per_call {Img Field : Type} (E : DFEngine Img Field)
    (names : String → Option Int) (cosd sind : ℚ → ℚ)
    (fit : LandmarkFace Img → RefSpace) (L : Lambda) (T : LinearTransform)
    (s1 s2 : Option RefSpace) (lf : LandmarkFace Img) :
    (Lambda.performSt E names cosd sind fit L s1 lf).1 =
      (Lambda.performSt E names cosd sind fit L s2 lf).1 ∧
    (Lambda.performSt E names cosd sind fit L s1 lf).2 = (some (fit lf), [lf]) ∧
    (LinearTransform.performSt E cosd sind fit T s1 lf).1 =
      (LinearTransform.performSt E cosd sind fit T s2 lf).1 ∧
    (LinearTransform.performSt E cosd sind fit T s1 lf).2 = (some (fit lf), [lf]) :=
  ⟨rfl, rfl, rfl, rfl⟩

theorem exceptMapM_ok {α β : Type} (f : α → Except PyErr β) (g : α → β) :
    ∀ (l : List α), (∀ x ∈ l, f x = .ok (g x)) → l.mapM f = .ok (l.map g) := by
  intro l
  induction l with
  | nil =>
    intro _
    rfl
  | cons x xs ih =>
    intro h
    rw [List.mapM_cons, h x (by simp), ih (fun a ha => h a (by simp [ha]))]
    rfl

theorem lookupZ_append (a b : List (Int × ℚ)) (i : Int) :
    lookupZ (a ++ b) i =
      match lookupZ a i with
      | some v => some v
      | none => lookupZ b i := by
  induction a with
  | nil => rfl
  | cons kv rest ih =>
    by_cases h : kv.1 = i
    · simp [lookupZ, h]
    · simp [lookupZ, h, ih]

theorem lookupZ_mapRange (g : Nat → ℚ) :
    ∀ (n i : Nat), i < n →
      lookupZ ((List.range n).map (fun (j : Nat) => ((j : Int), g j))) (i : Int) = some (g i) := by
  intro n
  induction n with
  | zero => omega
  | succ m ih =>
    intro i hi
    rw [List.range_succ, List.map_append, lookupZ_append]
    by_cases him : i < m
    · rw [ih i him]
    · have hieq : i = m := by omega
      subst hieq
      rw [lookupZ_eq_none_of_not_mem _ _ ?_]
      · simp [lookupZ]
      · simp only [List.map_map, List.mem_map]
        rintro ⟨j, hj, hji⟩
        have hcast : (j : Int) = (i : Int) := by
          simpa using hji
        have : j = i := by omega
        rw [this] at hj
        exact absurd (List.mem_range.mp hj) (by omega)

theorem lookupZ_mapRange_zero (n i : Nat) (h : i < n) :
    lookupZ ((List.range n).map (fun (j : Nat) => ((j : Int), (0 : ℚ)))) (i : Int) = some 0 :=
  lookupZ_mapRange (fun _ => 0) n i h

set_option maxRecDepth 4000 in
/-- C5: assuming the fitted reference space's maps are mutual inverses on the
face's points (and cosine and sine behave as expected at angle 0),
`LinearTransform` with identity parameters (scale 1, rotation 0, shear 0,
translation 0) returns a face whose 68 landmark positions are all
unchanged. -/
theorem linearTransform_identity {Img Field : Type} (E : DFEngine Img Field)
    (cosQ sinQ : ℚ → ℚ) (fit : LandmarkFace Img → RefSpace) (lf : LandmarkFace Img)
    (hlen : lf.points.length = 68) (hcos : cosQ 0 = 1) (hsin : sinQ 0 = 0)
    (hinv : ∀ p ∈ lf.points, (fit lf).ref2inp ((fit lf).inp2ref p) = p) :
    ∃ r : LandmarkFace Img × Field,
      LinearTransform.perform E cosQ sinQ fit ⟨1, 1, 0, 0, 0, 0⟩ lf = .ok r ∧
      r.1.points = lf.points := by
  have haff : affineApply cosQ sinQ ⟨1, 1, 0, 0, 0, 0⟩ = id := by
    funext p
    show (1 * cosQ 0 * p.1 - 1 * sinQ (0 + 0) * p.2 + 0,
          1 * sinQ 0 * p.1 + 1 * cosQ (0 + 0) * p.2 + 0) = p
    rw [show ((0 : ℚ) + 0) = 0 by norm_num, hcos, hsin]
    exact Prod.ext_iff.mpr ⟨by ring, by ring⟩
  have hlist : ((lf.points.map (fit lf).inp2ref).map
      (affineApply cosQ sinQ ⟨1, 1, 0, 0, 0, 0⟩)).map (fit lf).ref2inp = lf.points := by
    rw [haff, List.map_id, List.map_map]
    have hcongr : List.map ((fit lf).ref2inp ∘ (fit lf).inp2ref) lf.points =
        List.map id lf.points :=
      List.map_congr_left (fun a ha => hinv a ha)
    rw [hcongr]
    exact List.map_id lf.points
  have hstepx : ∀ i ∈ List.range 68,
      (do
        let t ← npGet lf.points (i : Int)
        let p ← npGet lf.points (i : Int)
        (Except.ok (((i : Nat) : Int), t.1 - p.1) : Except PyErr (Int × ℚ))) =
      .ok (((i : Nat) : Int), (0 : ℚ)) := by
    intro i hi
    have hi68 : i < 68 := List.mem_range.mp hi
    simp only [npGet_ok lf.points (i : Int) (by omega) (by omega), exceptBind_ok, sub_self]
  have hstepy : ∀ i ∈ List.range 68,
      (do
        let t ← npGet lf.points (i : Int)
        let p ← npGet lf.points (i : Int)
        (Except.ok (((i : Nat) : Int), t.2 - p.2) : Except PyErr (Int × ℚ))) =
      .ok (((i : Nat) : Int), (0 : ℚ)) := by
    intro i hi
    have hi68 : i < 68 := List.mem_range.mp hi
    simp only [npGet_ok lf.points (i : Int) (by omega) (by omega), exceptBind_ok, sub_self]
  have hx : (List.range 68).mapM (fun i => do
      let t ← npGet lf.points (i : Int)
      let p ← npGet lf.points (i : Int)
      (Except.ok (((i : Nat) : Int), t.1 - p.1) : Except PyErr (Int × ℚ))) =
      .ok ((List.range 68).map (fun (j : Nat) => ((j : Int), (0 : ℚ)))) :=
    exceptMapM_ok _ _ (List.range 68) hstepx
  have hy : (List.range 68).mapM (fun i => do
      let t ← npGet lf.points (i : Int)
      let p ← npGet lf.points (i : Int)
      (Except.ok (((i : Nat) : Int), t.2 - p.2) : Except PyErr (Int × ℚ))) =
      .ok ((List.range 68).map (fun (j : Nat) => ((j : Int), (0 : ℚ)))) :=
    exceptMapM_ok _ _ (List.range 68) hstepy
  have hzkeys : ∀ kv ∈ (List.range 68).map (fun (j : Nat) => ((j : Int), (0 : ℚ))),
      0 ≤ kv.1 ∧ kv.1 < 68 := by
    intro kv hkv
    simp only [List.mem_map, List.mem_range] at hkv
    obtain ⟨j, hj, hkj⟩ := hkv
    rw [← hkj]
    constructor
    · omega
    · show (j : Int) < 68
      omega
  have hznd : (((List.range 68).map (fun (j : Nat) => ((j : Int), (0 : ℚ)))).map Prod.fst).Nodup := by
    rw [List.map_map]
    have hcomp : (Prod.fst ∘ fun (j : Nat) => ((j : Int), (0 : ℚ))) =
        fun (j : Nat) => (j : Int) := rfl
    rw [hcomp]
    exact (List.nodup_range 68).map (fun a b h => by omega)
  obtain ⟨r, hr, hrlen, hrchar⟩ := absoluteMove_char E lf
    ((List.range 68).map (fun (j : Nat) => ((j : Int), (0 : ℚ))))
    ((List.range 68).map (fun (j : Nat) => ((j : Int), (0 : ℚ)))) hlen
    hzkeys hznd hzkeys hznd
  refine ⟨r, ?_, ?_⟩
  · simp only [LinearTransform.perform, hlist, hx, exceptBind_ok, hy]
    exact hr
  · refine ext_of_getD (0, 0) r.1.points lf.points (by omega) ?_
    intro i hi
    have hi68 : i < 68 := by omega
    rw [hrchar i hi68]
    rw [lookupZ_mapRange_zero 68 i hi68]
    simp

/-- Witness for C5: the identity transform on a concrete face with the
identity reference space leaves the points unchanged. -/
theorem linearTransform_identity_witness :
    ∃ r : LandmarkFace Unit × Unit,
      LinearTransform.perform unitEngine (fun _ => 1) (fun _ => 0)
        (fun _ => RefSpace.mk id id) ⟨1, 1, 0, 0, 0, 0⟩ face68 = .ok r ∧
      r.1.points = face68.points :=
  linearTransform_identity unitEngine (fun _ => 1) (fun _ => 0)
    (fun _ => RefSpace.mk id id) face68 (by rfl) rfl rfl (fun p _ => rfl)

theorem resolvesInRange_resolveKey (names : String → Option Int) (k : LmKey)
    (h : resolvesInRange names k = true) :
    resolveKey names k = .ok (resolveKeyD names k) ∧
    0 ≤ resolveKeyD names k ∧ resolveKeyD names k < 68 := by
  cases k with
  | idx i =>
    simp only [resolvesInRange, decide_eq_true_eq] at h
    exact ⟨rfl, h⟩
  | name s =>
    cases hn : names s with
    | some i =>
      rw [resolvesInRange, hn] at h
      simp only [decide_eq_true_eq] at h
      refine ⟨?_, ?_⟩
      · simp [resolveKey, resolveKeyD, hn]
      · rw [resolveKeyD, hn]
        exact h
    | none =>
      rw [resolvesInRange, hn] at h
      exact absurd h (by simp)

theorem dictInsert_append (d : List (Int × ℚ)) (k : Int) (v : ℚ)
    (h : k ∉ d.map Prod.fst) : dictInsert d k v = d ++ [(k, v)] := by
  unfold dictInsert
  have hany : ¬ (d.any (fun kv => kv.1 == k) = true) := by
    simp only [List.any_eq_true, beq_iff_eq]
    rintro ⟨kv, hkv, hkk⟩
    exact h (List.mem_map.mpr ⟨kv, hkv, hkk⟩)
  rw [if_neg hany]

theorem lambdaStep_ok (cosd sind : ℚ → ℚ) (rs : RefSpace) (pts : List Pt)
    (scale : ℚ) (names : String → Option Int) (hlen : pts.length = 68)
    (acc : List (Int × ℚ) × List (Int × ℚ)) (e : LmKey × (ℚ × ℚ))
    (he : resolvesInRange names e.1 = true) :
    lambdaStep cosd sind rs (pts.map rs.inp2ref) pts scale names acc e =
      .ok (dictInsert acc.1 (resolveKeyD names e.1)
             (lambdaClaimShift cosd sind rs pts scale (resolveKeyD names e.1) e.2.1 e.2.2).1,
           dictInsert acc.2 (resolveKeyD names e.1)
             (lambdaClaimShift cosd sind rs pts scale (resolveKeyD names e.1) e.2.1 e.2.2).2) := by
  obtain ⟨hrk, h0, h68⟩ := resolvesInRange_resolveKey names e.1 he
  have hmlen : (pts.map rs.inp2ref).length = 68 := by
    rw [List.length_map]
    exact hlen
  have hg1 : npGet (pts.map rs.inp2ref) (resolveKeyD names e.1) =
      .ok (rs.inp2ref (pts.getD (resolveKeyD names e.1).toNat (0, 0))) := by
    rw [npGet_ok (pts.map rs.inp2ref) (resolveKeyD names e.1) h0 (by omega)]
    rw [getD_map rs.inp2ref pts (resolveKeyD names e.1).toNat (0, 0) (0, 0) (by omega)]
  have hg2 : npGet pts (resolveKeyD names e.1) =
      .ok (pts.getD (resolveKeyD names e.1).toNat (0, 0)) :=
    npGet_ok pts (resolveKeyD names e.1) h0 (by omega)
  simp only [lambdaStep, hrk, exceptBind_ok, hg1, hg2]
  rfl

theorem lambdaFold_char (cosd sind : ℚ → ℚ) (rs : RefSpace) (pts : List Pt)
    (scale : ℚ) (names : String → Option Int) (hlen : pts.length = 68) :
    ∀ (specs : List (LmKey × (ℚ × ℚ))) (acc1 acc2 : List (Int × ℚ)),
      (∀ e ∈ specs, resolvesInRange names e.1 = true) →
      ((specs.map (fun e => resolveKeyD names e.1)).Nodup) →
      (∀ e ∈ specs, resolveKeyD names e.1 ∉ acc1.map Prod.fst) →
      (∀ e ∈ specs, resolveKeyD names e.1 ∉ acc2.map Prod.fst) →
      List.foldlM (lambdaStep cosd sind rs (pts.map rs.inp2ref) pts scale names)
          (acc1, acc2) specs =
        .ok (acc1 ++ specs.map (fun e => (resolveKeyD names e.1,
               (lambdaClaimShift cosd sind rs pts scale (resolveKeyD names e.1) e.2.1 e.2.2).1)),
             acc2 ++ specs.map (fun e => (resolveKeyD names e.1,
               (lambdaClaimShift cosd sind rs pts scale (resolveKeyD names e.1) e.2.1 e.2.2).2))) := by
  intro specs
  induction specs with
  | nil =>
    intro acc1 acc2 _ _ _ _
    rw [exceptFoldlM_nil]
    simp
  | cons e rest ih =>
    intro acc1 acc2 hall hnd hk1 hk2
    have he := hall e (by simp)
    have hstep := lambdaStep_ok cosd sind rs pts scale names hlen (acc1, acc2) e he
    rw [dictInsert_append acc1 _ _ (hk1 e (by simp)),
        dictInsert_append acc2 _ _ (hk2 e (by simp))] at hstep
    rw [exceptFoldlM_cons_ok _ _ _ _ _ hstep]
    rw [List.map_cons, List.nodup_cons] at hnd
    have ihres := ih (acc1 ++ [(resolveKeyD names e.1,
        (lambdaClaimShift cosd sind rs pts scale (resolveKeyD names e.1) e.2.1 e.2.2).1)])
      (acc2 ++ [(resolveKeyD names e.1,
        (lambdaClaimShift cosd sind rs pts scale (resolveKeyD names e.1) e.2.1 e.2.2).2)])
      (fun e2 he2 => hall e2 (by simp [he2])) hnd.2
      (by
        intro e2 he2
        rw [List.map_append, List.mem_append]
        rintro (hmem | hmem)
        · exact hk1 e2 (by simp [he2]) hmem
        · have : resolveKeyD names e2.1 = resolveKeyD names e.1 := by
            simpa using hmem
          exact hnd.1 (this ▸ List.mem_map.mpr ⟨e2, he2, rfl⟩))
      (by
        intro e2 he2
        rw [List.map_append, List.mem_append]
        rintro (hmem | hmem)
        · exact hk2 e2 (by simp [he2]) hmem
        · have : resolveKeyD names e2.1 = resolveKeyD names e.1 := by
            simpa using hmem
          exact hnd.1 (this ▸ List.mem_map.mpr ⟨e2, he2, rfl⟩))
    rw [ihres]
    simp [List.append_assoc]

/-- C2: for every face and every Lambda whose keys all resolve to in-range
landmark indices (distinct across entries), `perform` computes for each spec
entry the pixel shift
`toInput(toReference(points)[k] + (cos angle, sin angle) * prop * scale) - points[k]`,
collects exactly those per-landmark shifts into the x/y shift maps, and
returns the result of `AbsoluteMove` with those maps applied to the same
face. -/
theorem lambda_perform_eq_absoluteMove {Img Field : Type} (E : DFEngine Img Field)
    (names : String → Option Int) (cosd sind : ℚ → ℚ)
    (fit : LandmarkFace Img → RefSpace) (L : Lambda) (lf : LandmarkFace Img)
    (hlen : lf.points.length = 68)
    (hres : ∀ e ∈ L.specs, resolvesInRange names e.1 = true)
    (hnd : (L.specs.map (fun e => resolveKeyD names e.1)).Nodup) :
    Lambda.perform E names cosd sind fit L lf =
      AbsoluteMove.perform E
        ⟨L.specs.map (fun e => (resolveKeyD names e.1,
            (lambdaClaimShift cosd sind (fit lf) lf.points L.scale
              (resolveKeyD names e.1) e.2.1 e.2.2).1)),
         L.specs.map (fun e => (resolveKeyD names e.1,
            (lambdaClaimShift cosd sind (fit lf) lf.points L.scale
              (resolveKeyD names e.1) e.2.1 e.2.2).2))⟩ lf := by
  have hfold := lambdaFold_char cosd sind (fit lf) lf.points L.scale names hlen
    L.specs [] [] hres hnd (by simp) (by simp)
  simp only [Lambda.perform, hfold, exceptBind_ok, List.nil_append]

/-- Witness for C2 at a concrete face, name table and two-entry spec. -/
theorem lambda_perform_eq_absoluteMove_witness :
    Lambda.perform unitEngine exampleNames (fun _ => 1) (fun _ => 0)
      (fun _ => RefSpace.mk id id)
      ⟨1, [(LmKey.name ("CHIN"), ((90 : ℚ), (1 : ℚ))), (LmKey.idx 3, ((0 : ℚ), (1 / 2 : ℚ)))]⟩
      face68 =
    AbsoluteMove.perform unitEngine
      ⟨[(LmKey.name ("CHIN"), ((90 : ℚ), (1 : ℚ))), (LmKey.idx 3, ((0 : ℚ), (1 / 2 : ℚ)))].map
          (fun e => (resolveKeyD exampleNames e.1,
            (lambdaClaimShift (fun _ => 1) (fun _ => 0) (RefSpace.mk id id) face68.points 1
              (resolveKeyD exampleNames e.1) e.2.1 e.2.2).1)),
       [(LmKey.name ("CHIN"), ((90 : ℚ), (1 : ℚ))), (LmKey.idx 3, ((0 : ℚ), (1 / 2 : ℚ)))].map
          (fun e => (resolveKeyD exampleNames e.1,
            (lambdaClaimShift (fun _ => 1) (fun _ => 0) (RefSpace.mk id id) face68.points 1
              (resolveKeyD exampleNames e.1) e.2.1 e.2.2).2))⟩ face68 :=
  lambda_perform_eq_absoluteMove unitEngine exampleNames (fun _ => 1) (fun _ => 0)
    (fun _ => RefSpace.mk id id)
    ⟨1, [(LmKey.name ("CHIN"), ((90 : ℚ), (1 : ℚ))), (LmKey.idx 3, ((0 : ℚ), (1 / 2 : ℚ)))]⟩
    face68 (by rfl) (by decide) (by decide)

/-- C8 counterexample: the spec dict contains the unknown symbolic name
"NOPE", yet `perform` fails with numpy's IndexError instead of
`UnknownLandmarkNameError`, because the earlier entry with integer key 100 is
processed first and its out-of-range read raises before name resolution of
"NOPE" is ever attempted. -/
theorem lambda_unknown_name_counterexample :
    Lambda.perform unitEngine exampleNames (fun _ => 1) (fun _ => 0)
      (fun _ => RefSpace.mk id id)
      ⟨1, [(LmKey.idx 100, ((0 : ℚ), (1 : ℚ))), (LmKey.name ("NOPE"), ((0 : ℚ), (1 : ℚ)))]⟩
      face68 = .error .indexError := by
  rfl

theorem lambdaFold_ok_pre (cosd sind : ℚ → ℚ) (rs : RefSpace) (pts : List Pt)
    (scale : ℚ) (names : String → Option Int) (hlen : pts.length = 68) :
    ∀ (pre : List (LmKey × (ℚ × ℚ))) (acc : List (Int × ℚ) × List (Int × ℚ)),
      (∀ e ∈ pre, resolvesInRange names e.1 = true) →
      ∃ acc', List.foldlM (lambdaStep cosd sind rs (pts.map rs.inp2ref) pts scale names)
        acc pre = .ok acc' := by
  intro pre
  induction pre with
  | nil =>
    intro acc _
    exact ⟨acc, rfl⟩
  | cons e rest ih =>
    intro acc hall
    have hstep := lambdaStep_ok cosd sind rs pts scale names hlen acc e (hall e (by simp))
    rw [exceptFoldlM_cons_ok _ _ _ _ _ hstep]
    exact ih _ (fun e2 he2 => hall e2 (by simp [he2]))

theorem lambdaStep_unknown_name (cosd sind : ℚ → ℚ) (rs : RefSpace)
    (refPts pts : List Pt) (scale : ℚ) (names : String → Option Int)
    (acc : List (Int × ℚ) × List (Int × ℚ)) (s : String) (v : ℚ × ℚ)
    (hname : names s = none) :
    lambdaStep cosd sind rs refPts pts scale names acc (LmKey.name s, v) =
      .error .unknownLandmarkNameError := by
  simp only [lambdaStep, resolveKey, hname, exceptBind_err]

/-- C8 amended: an unknown symbolic name makes `Lambda.perform` fail with
`UnknownLandmarkNameError` provided it is the first failing entry — that is,
every spec entry before the first unknown name resolves to an in-range
landmark index; an earlier invalid entry fails first with its own error. -/
theorem lambda_unknown_name_error {Img Field : Type} (E : DFEngine Img Field)
    (names : String → Option Int) (cosd sind : ℚ → ℚ)
    (fit : LandmarkFace Img → RefSpace) (scale : ℚ)
    (pre rest : List (LmKey × (ℚ × ℚ))) (s : String) (v : ℚ × ℚ)
    (lf : LandmarkFace Img) (hlen : lf.points.length = 68)
    (hname : names s = none)
    (hpre : ∀ e ∈ pre, resolvesInRange names e.1 = true) :
    Lambda.perform E names cosd sind fit ⟨scale, pre ++ (LmKey.name s, v) :: rest⟩ lf =
      .error .unknownLandmarkNameError := by
  obtain ⟨acc', hfold⟩ := lambdaFold_ok_pre cosd sind (fit lf) lf.points scale names hlen
    pre ([], []) hpre
  have hbadstep := lambdaStep_unknown_name cosd sind (fit lf)
    (lf.points.map (fit lf).inp2ref) lf.points scale names acc' s v hname
  have hfull : List.foldlM (lambdaStep cosd sind (fit lf)
      (lf.points.map (fit lf).inp2ref) lf.points scale names) ([], [])
      (pre ++ (LmKey.name s, v) :: rest) = .error .unknownLandmarkNameError := by
    rw [List.foldlM_append, hfold, exceptBind_ok]
    rw [exceptFoldlM_cons_err _ _ _ _ _ hbadstep]
  simp only [Lambda.perform, hfull, exceptBind_err]

/-- Witness for the amended C8: the first entry resolves (name "CHIN"), the
second is the unknown name "NOPE", and perform fails with
`UnknownLandmarkNameError`. -/
theorem lambda_unknown_name_error_witness :
    Lambda.perform unitEngine exampleNames (fun _ => 1) (fun _ => 0)
      (fun _ => RefSpace.mk id id)
      ⟨1, [(LmKey.name ("CHIN"), ((0 : ℚ), (1 : ℚ)))] ++ (LmKey.name ("NOPE"), ((0 : ℚ), (1 : ℚ))) :: []⟩
      face68 = .error .unknownLandmarkNameError :=
  lambda_unknown_name_error unitEngine exampleNames (fun _ => 1) (fun _ => 0)
    (fun _ => RefSpace.mk id id) 1 [(LmKey.name ("CHIN"), ((0 : ℚ), (1 : ℚ)))] []
    ("NOPE") ((0 : ℚ), (1 : ℚ)) face68 (by rfl) (by rfl) (by decide)

/-- C3 counterexample: the claim — that under the unit-circle identity the
reference-space shift of the largest-magnitude spec entry has squared
magnitude exactly `scale ^ 2` — fails at the one-entry spec with proportion
1/2, scale 1 and angle 0: the shift is (1/2, 0) with squared magnitude 1/4,
not 1. -/
theorem lambda_scale_counterexample :
    ¬ (∀ (cosd sind : ℚ → ℚ), (∀ a, (cosd a) ^ 2 + (sind a) ^ 2 = 1) →
        ∀ (L : Lambda) (e : LmKey × (ℚ × ℚ)), e ∈ L.specs →
        (∀ e2 ∈ L.specs, |e2.2.2| ≤ |e.2.2|) →
        normSq (refShift cosd sind L.scale e.2.1 e.2.2) = L.scale ^ 2) := by
  intro h
  have h1 := h (fun _ => 1) (fun _ => 0) (fun a => by norm_num)
    ⟨1, [(LmKey.idx 0, ((0 : ℚ), (1 / 2 : ℚ)))]⟩ (LmKey.idx 0, ((0 : ℚ), (1 / 2 : ℚ)))
    (by simp)
    (by
      intro e2 he2
      rw [List.mem_singleton] at he2
      subst he2
      exact le_rfl)
  simp only [normSq, refShift] at h1
  norm_num at h1

/-- C3 amended: the reference-space shift of a spec entry has squared
magnitude `(scale * proportion) ^ 2` (assuming cos² + sin² = 1 at the entry's
angle), so entries scale proportionally to one another and the
largest-magnitude entry gets magnitude `scale * max proportion`, which equals
`scale` only when the largest proportion is 1 — the code never normalises by
the largest proportion. -/
theorem refShift_magnitude (cosd sind : ℚ → ℚ) (scale angle pr : ℚ)
    (hunit : (cosd angle) ^ 2 + (sind angle) ^ 2 = 1) :
    normSq (refShift cosd sind scale angle pr) = (scale * pr) ^ 2 := by
  unfold normSq refShift
  linear_combination (pr * scale) ^ 2 * hunit

/-- Witness for the amended C3 on the rational point (3/5, 4/5) of the unit
circle: with scale 2 and proportion 1/2 the squared magnitude is 1. -/
theorem refShift_magnitude_witness :
    normSq (refShift (fun _ => (3 / 5 : ℚ)) (fun _ => (4 / 5 : ℚ)) 2 0 (1 / 2)) =
      (2 * (1 / 2)) ^ 2 :=
  refShift_magnitude (fun _ => 3 / 5) (fun _ => 4 / 5) 2 0 (1 / 2) (by norm_num)

end Pychubby
